import Mathlib

/-!
Verification of the Quorum client (Next.js frontend) against its
natural-language specification.

The TypeScript sources are shallowly embedded:
* JS `number` values are modelled as exact rationals (`ℚ`); amounts that the
  API contract declares to be integer microdollars are modelled as `ℤ`.
* JS `null`/`undefined` fields are modelled with `Option`.
* JS strings are modelled as Lean `String`s; the SSE chunk parser of
  `executeSubtasks` (src `lib/api.ts`) works on `List Char` so that the
  chunk/line splitting logic can be stated and evaluated structurally.
* React `useState` state of the `Home` page (src `app/page.tsx`) is gathered
  into one `ClientState` record; each execution callback becomes a pure state
  transformer, applied in event-arrival order.
-/

namespace Quorum

/-! ## JS numeric primitives -/

/-- JS `Math.round`: round half toward positive infinity. -/
def jsMathRound (q : ℚ) : ℤ := ⌊q + 1/2⌋

/-- Rounding used by JS `Number.prototype.toFixed`: half away from zero. -/
def jsRoundHalfAway (q : ℚ) : ℤ :=
  if 0 ≤ q then ⌊q + 1/2⌋ else -⌊-q + 1/2⌋

/-- Left-pad a digit string with zeros to the given length. -/
def padZeros (s : List Char) (n : ℕ) : List Char :=
  List.replicate (n - s.length) '0' ++ s

/-- Render a magnitude `m` (the scaled-and-rounded amount's absolute value)
as a fixed-point decimal with `n` fractional digits; `neg` is the sign of the
*input* number, as JS `toFixed` keeps it even when the digits round to zero
(`(-0.001).toFixed(2)` is `"-0.00"`). -/
def renderFixed (n : ℕ) (neg : Bool) (m : ℕ) : String :=
  let ds := padZeros (Nat.repr m).toList (n + 1)
  let ip := ds.take (ds.length - n)
  let fp := ds.drop (ds.length - n)
  (if neg then "-" else "") ++ String.mk ip ++ "." ++ String.mk fp

/-- JS `q.toFixed(n)`, with the JS number modelled as an exact rational. -/
def jsToFixed (n : ℕ) (q : ℚ) : String :=
  renderFixed n (decide (q < 0)) (jsRoundHalfAway (q * 10 ^ n)).natAbs

/-- The exact rational value denoted by the string `jsToFixed n q`. -/
def toFixedVal (n : ℕ) (q : ℚ) : ℚ :=
  (jsRoundHalfAway (q * 10 ^ n) : ℚ) / 10 ^ n

/-! ## C8 — microdollar displays

From `components/Nav` (page.tsx): the nav wallet chip renders
`(walletBalance / 1_000_000).toFixed(2)`; from `handleExecute`'s
`onBillingRequired` callback: the banner message renders
`(d.required_microdollars / 1e6).toFixed(4)` and
`(d.balance_microdollars / 1e6).toFixed(4)`.  Balances and event-stream
amounts are integer microdollars per the API contract (the backend is not
part of the frontend sources; integrality is taken from the spec, hence the
`ℤ` type of the inputs). -/

/-- Dollar value the nav balance chip displays, before `toFixed(2)`:
`walletBalance / 1_000_000` with `walletBalance` in microdollars. -/
def navBalanceUsd (b : ℤ) : ℚ := (b : ℚ) / 1000000

/-- The nav balance chip text: `$` followed by `toFixed(2)` of the value. -/
def navBalanceText (b : ℤ) : String := "$" ++ jsToFixed 2 (navBalanceUsd b)

/-- Dollar value used inside the insufficient-balance banner for each of the
two microdollar amounts: division by `1e6`. -/
def billingUsd (m : ℤ) : ℚ := (m : ℚ) / 1000000

/-- The `onBillingRequired` banner message from `handleExecute`. -/
def billingMessage (required_microdollars balance_microdollars : ℤ) : String :=
  "Insufficient balance. Need $" ++ jsToFixed 4 (billingUsd required_microdollars) ++
    " (balance: $" ++ jsToFixed 4 (billingUsd balance_microdollars) ++ "). Top up to continue."

/-- The per-model cost chip of `AgentNode` (`app/page.tsx`):
`$` followed by `totals.total_cost >= 0.01 ? totals.total_cost.toFixed(2)
: totals.total_cost.toFixed(4)`.  The aggregated `total_cost` is rendered
directly, with no division by 1e6: the `agent_completed` cost fields arrive
from the stream already in (fractional) USD.  The argument is the
`total_cost` field of the per-model totals record (`ModelTotals`, declared
below with the rest of the aggregation). -/
def agentCostChipText (total_cost : ℚ) : String :=
  "$" ++ (if total_cost ≥ 1/100 then jsToFixed 2 total_cost else jsToFixed 4 total_cost)

/-! ## C10 — top-up amount validation (`components/TopUpModal.tsx`) -/

/-- `Math.round(parseFloat(amount || "0") * 100)` with the parsed amount
modelled as an exact rational. -/
def amountCents (amount : ℚ) : ℤ := jsMathRound (amount * 100)

/-- `amountCents >= 50 && amountCents <= 10000` — the $0.50–$100 gate. -/
def validAmount (amount : ℚ) : Bool :=
  50 ≤ amountCents amount && amountCents amount ≤ 10000

/-- `handleQuickAdd`: if the amount is invalid, return without any request;
otherwise issue `topUpWallet("demo", amountCents / 100)`.  The result is the
dollar amount sent, `none` when no request is made. -/
def handleQuickAdd (amount : ℚ) : Option ℚ :=
  if validAmount amount then some ((amountCents amount : ℚ) / 100) else none

/-- `handleProceed`: if the amount is invalid, return without any request;
otherwise issue `createTopupIntent("demo", amountCents)`.  The result is the
cents amount sent, `none` when no request is made. -/
def handleProceed (amount : ℚ) : Option ℤ :=
  if validAmount amount then some (amountCents amount) else none

/-! ## C1 — the SSE stream consumer of `executeSubtasks` (`lib/api.ts`)

The `pump` loop is embedded over `List Char` (a JS string).  Per chunk the
code appends to `buffer`, splits on newline, pops the last piece back into
`buffer`, and walks the remaining lines with a `currentEvent` variable that
is **declared inside `pump`**, i.e. reset to the empty string at every chunk.
A `data:` line dispatches through a switch over eleven event names; any other
name falls through with no callback.  `JSON.parse` of the payload is
abstracted: the payload text is passed through verbatim. -/

/-- The eleven event names with a case in the dispatch switch. -/
def handledEvents : List String :=
  ["agent_started", "agent_token", "agent_completed", "agent_failed",
   "wallet_updated", "billing_required", "synthesizing", "synthesis_token",
   "synthesis_complete", "carbon_update", "carbon_summary"]

/-- The characters of the line tag checked by `line.startsWith("event: ")`. -/
def eventTag : List Char := ['e', 'v', 'e', 'n', 't', ':', ' ']

/-- The characters of the line tag checked by `line.startsWith("data: ")`. -/
def dataTag : List Char := ['d', 'a', 't', 'a', ':', ' ']

/-- JS string `split("\n")`: the pieces between newlines, including a final
(possibly empty) piece after the last newline. -/
def splitLines : List Char → List (List Char)
  | [] => [[]]
  | c :: cs =>
    if c = '\n' then [] :: splitLines cs
    else
      match splitLines cs with
      | [] => [[c]]
      | l :: ls => (c :: l) :: ls

/-- JS whitespace for `String.prototype.trim` (the characters relevant to
this protocol). -/
def isJsSpace (c : Char) : Bool := c = ' ' || c = '\t' || c = '\n' || c = '\r'

/-- JS `trim()`: strip whitespace from both ends. -/
def trimChars (l : List Char) : List Char :=
  ((l.dropWhile isJsSpace).reverse.dropWhile isJsSpace).reverse

/-- The switch body: a recognized event name invokes its callback with the
payload (recorded as a dispatch), any other name invokes nothing. -/
def dispatchOf (name payload : List Char) : List (String × String) :=
  if String.mk name ∈ handledEvents then [(String.mk name, String.mk payload)] else []

/-- The `for (const line of lines)` loop of one `pump` call, with the running
`currentEvent` value (empty list = the initial `""`). -/
def runLines (cur : List Char) : List (List Char) → List (String × String)
  | [] => []
  | line :: rest =>
    if eventTag.isPrefixOf line then
      runLines (trimChars (line.drop 7)) rest
    else if dataTag.isPrefixOf line && !cur.isEmpty then
      dispatchOf cur (line.drop 6) ++ runLines [] rest
    else
      runLines cur rest

/-- One `pump` iteration: append the chunk to the buffer, split into lines,
keep the last piece as the new buffer, process the rest with a fresh
`currentEvent`.  Returns the new buffer and the dispatches emitted. -/
def processChunk (buffer chunk : List Char) : List Char × List (String × String) :=
  let ls := splitLines (buffer ++ chunk)
  (ls.getLastD [], runLines [] ls.dropLast)

/-- The whole read loop over a list of chunks; at `done` the remaining
buffer is discarded. -/
def processStream (buffer : List Char) : List (List Char) → List (String × String)
  | [] => []
  | chunk :: rest =>
    let st := processChunk buffer chunk
    st.2 ++ processStream st.1 rest

/-- The stream consumer applied to the chunk sequence delivered by
`reader.read()`, starting from the empty buffer. -/
def consumeStream (chunks : List String) : List (String × String) :=
  processStream [] (chunks.map String.toList)

/-- A well-formed wire record for one event: an `event:` line followed by its
`data:` line. -/
def encodeEvent (e : String × String) : List Char :=
  eventTag ++ e.1.toList ++ '\n' :: (dataTag ++ e.2.toList ++ ['\n'])

/-- A stream text carrying the given events in order. -/
def encodeEvents (evs : List (String × String)) : List Char :=
  (evs.map encodeEvent).flatten

/-- A name/payload pair whose wire encoding is unambiguous: nonempty
already-trimmed name, no embedded newlines. -/
def cleanEvent (e : String × String) : Prop :=
  e.1.toList ≠ [] ∧ trimChars e.1.toList = e.1.toList ∧
    '\n' ∉ e.1.toList ∧ '\n' ∉ e.2.toList

instance (e : String × String) : Decidable (cleanEvent e) := by
  unfold cleanEvent; infer_instance

/-! ## Data model (`lib/api.ts` types) -/

/-- `TaskStatus` from `lib/api.ts`. -/
inductive TaskStatus where
  | pending
  | running
  | completed
  | failed
deriving DecidableEq, Repr

/-- `Subtask` from `lib/api.ts`. -/
structure Subtask where
  id : ℕ
  title : String
  description : String
  category : String
  depends_on : List ℕ
  assigned_model : String
  routing_reason : String
deriving DecidableEq, Repr

/-- `SubtaskExecution` from `lib/api.ts`.  `none` models both JS `null` and
`undefined`; `status` is optional here because spreading a missing record
(`{...p[d.id], ...}` at an unknown id) yields an object with no status. -/
structure SubtaskExecution where
  status : Option TaskStatus
  output : Option String
  partialOutput : Option String
  error : Option String
  duration : Option ℚ
  gco2 : Option ℚ
  tokens : Option ℚ
  startedAt : Option ℚ
  completedAt : Option ℚ
  input_tokens : Option ℚ
  output_tokens : Option ℚ
  input_cost : Option ℚ
  output_cost : Option ℚ
  total_cost : Option ℚ
deriving DecidableEq, Repr

/-- `CarbonSummary` from `lib/api.ts`. -/
structure CarbonSummary where
  pipeline_gco2 : ℚ
  agent_gco2 : ℚ
  baseline_gco2 : ℚ
  savings_pct : ℚ
  time_savings_pct : ℚ
  pipeline_time_s : ℚ
  sequential_time_s : ℚ
  carbon_intensity : ℚ
  zone : String
  total_tokens : ℚ
deriving DecidableEq, Repr

/-- Payload of `agent_started`. -/
structure AgentStartedData where
  id : ℕ
  title : String
  model : String
deriving DecidableEq, Repr

/-- Payload of `agent_token`. -/
structure AgentTokenData where
  id : ℕ
  token : String
deriving DecidableEq, Repr

/-- Payload of `agent_completed` (the cost fields are optional in the TS
callback type). -/
structure AgentCompletedData where
  id : ℕ
  title : String
  model : String
  output : String
  duration : ℚ
  gco2 : ℚ
  tokens : ℚ
  input_tokens : Option ℚ
  output_tokens : Option ℚ
  input_cost : Option ℚ
  output_cost : Option ℚ
  total_cost : Option ℚ
deriving DecidableEq, Repr

/-- Payload of `agent_failed`. -/
structure AgentFailedData where
  id : ℕ
  title : String
  error : String
deriving DecidableEq, Repr

/-- Payload of `wallet_updated`. -/
structure WalletUpdatedData where
  user_id : String
  balance_microdollars : ℤ
deriving DecidableEq, Repr

/-- Payload of `billing_required`. -/
structure BillingRequiredData where
  user_id : String
  subtask_id : ℕ
  required_microdollars : ℤ
  balance_microdollars : ℤ
deriving DecidableEq, Repr

/-- The typed events a run's stream can carry to the `Home` page callbacks. -/
inductive ExecEvent where
  | agent_started (d : AgentStartedData)
  | agent_token (d : AgentTokenData)
  | agent_completed (d : AgentCompletedData)
  | agent_failed (d : AgentFailedData)
  | wallet_updated (d : WalletUpdatedData)
  | billing_required (d : BillingRequiredData)
  | synthesizing
  | synthesis_token (token : String)
  | synthesis_complete (output : String)
  | carbon_update (total_gco2 : ℚ)
  | carbon_summary (d : CarbonSummary)
deriving DecidableEq, Repr

/-! ## The `Home` page execution state (`app/page.tsx`) -/

/-- The `useState` cells of `Home` that the execution callbacks touch,
gathered into one record.  `taskStates` is the
`Record<number, SubtaskExecution>` object. -/
structure ClientState where
  taskStates : ℕ → Option SubtaskExecution
  executing : Bool
  executionDone : Bool
  synthesizing : Bool
  synthesisPartial : Option String
  finalOutput : Option String
  walletBalance : Option ℤ
  totalCarbon : ℚ
  carbonSummary : Option CarbonSummary
  carbonTimeSeries : List (ℚ × ℚ)
  error : Option String

/-- A `SubtaskExecution` with every field `undefined` — what spreading a
missing record produces. -/
def undefExec : SubtaskExecution :=
  { status := none, output := none, partialOutput := none, error := none,
    duration := none, gco2 := none, tokens := none, startedAt := none,
    completedAt := none, input_tokens := none, output_tokens := none,
    input_cost := none, output_cost := none, total_cost := none }

/-- `{ ...p, [i]: r }`: update the task-state record at key `i`. -/
def setTask (ts : ℕ → Option SubtaskExecution) (i : ℕ) (r : SubtaskExecution) :
    ℕ → Option SubtaskExecution :=
  fun j => if j = i then some r else ts j

/-- The page's initial state (all `useState` defaults). -/
def emptyState : ClientState :=
  { taskStates := fun _ => none, executing := false, executionDone := false,
    synthesizing := false, synthesisPartial := none, finalOutput := none,
    walletBalance := none, totalCarbon := 0, carbonSummary := none,
    carbonTimeSeries := [], error := none }

/-- One execution callback of `handleExecute`, as a pure state transformer.
`now` is the value of `Date.now() / 1000 - executionStartRef.current` at the
moment the event is handled. -/
def applyEvent (now : ℚ) (s : ClientState) : ExecEvent → ClientState
  | .agent_started d =>
    let old := (s.taskStates d.id).getD undefExec
    let r := { old with status := some .running, startedAt := some now }
    { s with taskStates := setTask s.taskStates d.id r }
  | .agent_token d =>
    let old := (s.taskStates d.id).getD undefExec
    let r := { old with partialOutput := some (old.partialOutput.getD "" ++ d.token) }
    { s with taskStates := setTask s.taskStates d.id r }
  | .agent_completed d =>
    let r : SubtaskExecution :=
      { status := some .completed, output := some d.output, partialOutput := none,
        error := none, duration := some d.duration, gco2 := some d.gco2,
        tokens := some d.tokens,
        startedAt := (s.taskStates d.id).bind SubtaskExecution.startedAt,
        completedAt := some now,
        input_tokens := d.input_tokens, output_tokens := d.output_tokens,
        input_cost := d.input_cost, output_cost := d.output_cost,
        total_cost := d.total_cost }
    { s with taskStates := setTask s.taskStates d.id r }
  | .agent_failed d =>
    let r : SubtaskExecution :=
      { status := some .failed, output := none, partialOutput := none,
        error := some d.error, duration := none, gco2 := none, tokens := none,
        startedAt := (s.taskStates d.id).bind SubtaskExecution.startedAt,
        completedAt := some now,
        input_tokens := none, output_tokens := none, input_cost := none,
        output_cost := none, total_cost := none }
    { s with taskStates := setTask s.taskStates d.id r }
  | .wallet_updated d => { s with walletBalance := some d.balance_microdollars }
  | .billing_required d =>
    { s with error := some (billingMessage d.required_microdollars d.balance_microdollars) }
  | .synthesizing => { s with synthesizing := true, synthesisPartial := some "" }
  | .synthesis_token tok =>
    { s with synthesisPartial := some (s.synthesisPartial.getD "" ++ tok) }
  | .synthesis_complete out =>
    { s with
      synthesizing := false, synthesisPartial := none,
      finalOutput := some out, executing := false, executionDone := true }
  | .carbon_update g =>
    { s with totalCarbon := g, carbonTimeSeries := s.carbonTimeSeries ++ [(now, g)] }
  | .carbon_summary d => { s with carbonSummary := some d }

/-- Apply a sequence of events, each with its handling time. -/
def applyEvents (s : ClientState) (evs : List (ℚ × ExecEvent)) : ClientState :=
  evs.foldl (fun acc te => applyEvent te.1 acc te.2) s

/-- The fresh record `handleExecute` builds for every subtask id of the run
(status `pending`, everything else `null`; the optional cost fields are left
undefined). -/
def initExec : SubtaskExecution :=
  { status := some .pending, output := none, partialOutput := none, error := none,
    duration := none, gco2 := none, tokens := none, startedAt := none,
    completedAt := none, input_tokens := none, output_tokens := none,
    input_cost := none, output_cost := none, total_cost := none }

/-- The `init` object of `handleExecute`: exactly the ids of the run's
subtasks, each mapped to `initExec`. -/
def initTaskStates (subtasks : List Subtask) : ℕ → Option SubtaskExecution :=
  fun i => if subtasks.any (fun st => st.id = i) then some initExec else none

/-- The synchronous part of `handleExecute` (`app/page.tsx`), up to and
including `setTaskStates(init)` — everything that runs before any stream
event is processed.  The `!result || executing` guard is modelled by taking
the decomposition's subtasks as an argument and keeping the `executing`
bail-out. -/
def handleExecute (s : ClientState) (subtasks : List Subtask) : ClientState :=
  if s.executing then s
  else
    { s with
      executing := true, executionDone := false, finalOutput := none,
      synthesizing := false, synthesisPartial := none, totalCarbon := 0,
      carbonSummary := none, carbonTimeSeries := [], error := none,
      taskStates := initTaskStates subtasks }

/-- A JS `Error` as observed by the fetch `catch` handler. -/
structure JsError where
  name : String
  message : String
deriving DecidableEq, Repr

/-- The `catch` at the end of `executeSubtasks`: the message handed to
`callbacks.onError`, or `none` when the failure is an `AbortError`. -/
def streamFailureCallback (err : JsError) : Option String :=
  if err.name ≠ "AbortError" then some err.message else none

/-- The effect of the `catch` on the page state: `onError` sets the error
banner and clears the executing/synthesizing flags; an `AbortError` invokes
nothing. -/
def onStreamFailure (s : ClientState) (err : JsError) : ClientState :=
  match streamFailureCallback err with
  | some m => { s with error := some m, executing := false, synthesizing := false }
  | none => s

/-! ## Per-model aggregated totals (`components/AgentWorkflow.tsx`) -/

/-- The value type of the `totalsByModel` record. -/
structure ModelTotals where
  input_tokens : ℚ
  output_tokens : ℚ
  total_cost : ℚ
deriving DecidableEq, Repr

/-- Write-through update of the JS object: replace the entry in place, or
append a new key. -/
def upsertTotals (model : String) (v : ModelTotals) :
    List (String × ModelTotals) → List (String × ModelTotals)
  | [] => [(model, v)]
  | kv :: t => if kv.1 = model then (model, v) :: t else kv :: upsertTotals model v t

/-- One iteration of the `totalsByModel` loop: add `exec?.input_tokens ?? 0`,
`exec?.output_tokens ?? 0`, `exec?.total_cost ?? 0` to the subtask's assigned
model's running totals. -/
def totalsStep (ts : ℕ → Option SubtaskExecution)
    (totals : List (String × ModelTotals)) (st : Subtask) :
    List (String × ModelTotals) :=
  let exec := ts st.id
  let cur := (List.lookup st.assigned_model totals).getD ⟨0, 0, 0⟩
  upsertTotals st.assigned_model
    ⟨cur.input_tokens + (exec.bind SubtaskExecution.input_tokens).getD 0,
     cur.output_tokens + (exec.bind SubtaskExecution.output_tokens).getD 0,
     cur.total_cost + (exec.bind SubtaskExecution.total_cost).getD 0⟩
    totals

/-- `totalsByModel` from `AgentWorkflow` (a `useMemo` recomputed from the
per-subtask records whenever `taskStates` changes). -/
def totalsByModel (subtasks : List Subtask) (ts : ℕ → Option SubtaskExecution) :
    List (String × ModelTotals) :=
  subtasks.foldl (totalsStep ts) []

/-- The three fields of a task record that `totalsByModel` reads. -/
def costProj (o : Option SubtaskExecution) : ℚ × ℚ × ℚ :=
  ((o.bind SubtaskExecution.input_tokens).getD 0,
   (o.bind SubtaskExecution.output_tokens).getD 0,
   (o.bind SubtaskExecution.total_cost).getD 0)

/-! ## C4 — dependency scheduling, modelled from the spec

Modelled from the spec: the Dependency Graph / Scheduler lives in the Python
backend, which is not among the repository's frontend sources; only the
`Subtask.depends_on` data crosses the boundary.  Per spec section 4.1 the
graph exposes `runnable_now()` — all pending nodes with zero unmet
dependencies — and dispatch happens only for ids returned by it. -/

/-- Modelled from the spec: a subtask's unmet-dependency count, given the
ids that have settled (become terminal). -/
def unmetCount (settled : List ℕ) (st : Subtask) : ℕ :=
  (st.depends_on.filter (fun d => !settled.contains d)).length

/-- Modelled from the spec: `runnable_now()` — ids of pending nodes whose
unmet-dependency count is zero. -/
def runnableNow (S : List Subtask) (pending settled : List ℕ) : List ℕ :=
  (S.filter (fun st => pending.contains st.id && unmetCount settled st == 0)).map Subtask.id

/-- Projection used throughout: the status stored for subtask `i`. -/
def statusOf (s : ClientState) (i : ℕ) : Option TaskStatus :=
  (s.taskStates i).bind SubtaskExecution.status

/-- Events whose handler writes the status of subtask `i`. -/
def statusEvent (i : ℕ) : ExecEvent → Bool
  | .agent_started d => d.id = i
  | .agent_completed d => d.id = i
  | .agent_failed d => d.id = i
  | _ => false

/-- The concatenation of a list of token strings in arrival order. -/
def concatStrings : List String → String
  | [] => ""
  | t :: rest => t ++ concatStrings rest

/-- The two wire lines of each event, in stream order (specification of the
line discipline used to state C1). -/
def linesOf : List (String × String) → List (List Char)
  | [] => []
  | e :: rest => (eventTag ++ e.1.toList) :: (dataTag ++ e.2.toList) :: linesOf rest

/-! ## Helper lemmas -/

theorem mk_toList (s : String) : String.mk s.toList = s := rfl

theorem splitLines_ne_nil (l : List Char) : splitLines l ≠ [] := by
  induction l with
  | nil => simp [splitLines]
  | cons c cs ih =>
    simp only [splitLines]
    split
    · simp
    · cases h : splitLines cs with
      | nil => simp
      | cons a as => simp

theorem splitLines_append (xs ys : List Char) (h : '\n' ∉ xs) :
    splitLines (xs ++ '\n' :: ys) = xs :: splitLines ys := by
  induction xs with
  | nil => simp [splitLines]
  | cons c cs ih =>
    have hc : c ≠ '\n' := by intro e; exact h (by simp [e])
    have hcs : '\n' ∉ cs := fun m => h (List.mem_cons_of_mem _ m)
    simp only [List.cons_append, splitLines, if_neg hc]
    rw [show cs.append ('\n' :: ys) = cs ++ '\n' :: ys from rfl, ih hcs]

theorem drop_eventTag (l : List Char) : (eventTag ++ l).drop 7 = l := by
  simp [eventTag]

theorem drop_dataTag (l : List Char) : (dataTag ++ l).drop 6 = l := by
  simp [dataTag]

theorem eventTag_self_prefix (l : List Char) :
    eventTag.isPrefixOf (eventTag ++ l) = true := by
  simp [eventTag, List.isPrefixOf]

theorem dataTag_self_prefix (l : List Char) :
    dataTag.isPrefixOf (dataTag ++ l) = true := by
  simp [dataTag, List.isPrefixOf]

theorem eventTag_not_prefix_data (l : List Char) :
    eventTag.isPrefixOf (dataTag ++ l) = false := by
  simp [eventTag, dataTag, List.isPrefixOf]

theorem splitLines_encode (evs : List (String × String))
    (h : ∀ e ∈ evs, cleanEvent e) :
    splitLines (encodeEvents evs) = linesOf evs ++ [[]] := by
  induction evs with
  | nil => simp [encodeEvents, linesOf, splitLines]
  | cons e rest ih =>
    obtain ⟨hne, htrim, hn1, hn2⟩ := h e (List.mem_cons_self e rest)
    have hrest : ∀ x ∈ rest, cleanEvent x := fun x hx => h x (List.mem_cons_of_mem _ hx)
    have hA : '\n' ∉ (eventTag ++ e.1.toList) := by
      intro m
      rcases List.mem_append.mp m with m1 | m2
      · exact absurd m1 (by decide)
      · exact hn1 m2
    have hB : '\n' ∉ (dataTag ++ e.2.toList) := by
      intro m
      rcases List.mem_append.mp m with m1 | m2
      · exact absurd m1 (by decide)
      · exact hn2 m2
    have henc : encodeEvents (e :: rest)
        = (eventTag ++ e.1.toList) ++ '\n' ::
            ((dataTag ++ e.2.toList) ++ '\n' :: encodeEvents rest) := by
      simp [encodeEvents, encodeEvent]
    rw [henc, splitLines_append _ _ hA, splitLines_append _ _ hB, ih hrest]
    simp [linesOf]

theorem runLines_lines (evs : List (String × String))
    (h : ∀ e ∈ evs, cleanEvent e) (cur : List Char) :
    runLines cur (linesOf evs) = evs.filter (fun e => decide (e.1 ∈ handledEvents)) := by
  induction evs generalizing cur with
  | nil => simp [linesOf, runLines]
  | cons e rest ih =>
    obtain ⟨hne, htrim, hn1, hn2⟩ := h e (List.mem_cons_self e rest)
    have hrest : ∀ x ∈ rest, cleanEvent x := fun x hx => h x (List.mem_cons_of_mem _ hx)
    obtain ⟨c, cs, hname⟩ := List.exists_cons_of_ne_nil hne
    have hemp : e.1.toList.isEmpty = false := by rw [hname]; rfl
    simp only [linesOf, runLines, eventTag_self_prefix, if_pos, drop_eventTag,
      eventTag_not_prefix_data, dataTag_self_prefix, drop_dataTag, htrim, hemp,
      Bool.not_false, Bool.and_true, if_true, if_false, Bool.false_eq_true,
      Bool.true_and]
    rw [ih hrest]
    by_cases hm : e.1 ∈ handledEvents
    · simp [dispatchOf, mk_toList, hm, List.filter_cons]
    · simp [dispatchOf, mk_toList, hm, List.filter_cons]

theorem token_fold (now : ℚ) (i : ℕ) :
    ∀ (toks : List String) (s : ClientState) (r0 : SubtaskExecution),
      s.taskStates i = some r0 → toks ≠ [] →
      (applyEvents s (toks.map (fun t => (now, ExecEvent.agent_token ⟨i, t⟩)))).taskStates i
        = some { r0 with partialOutput := some (r0.partialOutput.getD "" ++ concatStrings toks) }
  | [], _, _, _, hne => absurd rfl hne
  | t :: rest, s, r0, h, _ => by
    have hstep : (applyEvent now s (.agent_token ⟨i, t⟩)).taskStates i
        = some { r0 with partialOutput := some (r0.partialOutput.getD "" ++ t) } := by
      simp [applyEvent, setTask, h]
    cases rest with
    | nil =>
      show (applyEvent now s (.agent_token ⟨i, t⟩)).taskStates i = _
      rw [hstep]
      simp [concatStrings, String.append_empty]
    | cons t2 rest2 =>
      have hrec := token_fold now i (t2 :: rest2)
        (applyEvent now s (.agent_token ⟨i, t⟩))
        { r0 with partialOutput := some (r0.partialOutput.getD "" ++ t) }
        hstep (by simp)
      show (applyEvents (applyEvent now s (.agent_token ⟨i, t⟩))
          ((t2 :: rest2).map (fun t => (now, ExecEvent.agent_token ⟨i, t⟩)))).taskStates i = _
      rw [hrec]
      simp [concatStrings, String.append_assoc]

theorem synth_token_fold (now : ℚ) :
    ∀ (toks : List String) (s : ClientState), toks ≠ [] →
      (applyEvents s (toks.map (fun t => (now, ExecEvent.synthesis_token t)))).synthesisPartial
        = some (s.synthesisPartial.getD "" ++ concatStrings toks)
  | [], _, hne => absurd rfl hne
  | t :: rest, s, _ => by
    cases rest with
    | nil =>
      show (applyEvent now s (.synthesis_token t)).synthesisPartial = _
      simp [applyEvent, concatStrings, String.append_empty]
    | cons t2 rest2 =>
      have hrec := synth_token_fold now (t2 :: rest2)
        (applyEvent now s (.synthesis_token t)) (by simp)
      show (applyEvents (applyEvent now s (.synthesis_token t))
          ((t2 :: rest2).map (fun t => (now, ExecEvent.synthesis_token t)))).synthesisPartial = _
      rw [hrec]
      simp [applyEvent, concatStrings, String.append_assoc]

/-! ## Claims -/

/-- Claim C1 (corrected).  The stream consumer dispatches to the callbacks,
exactly once each and in stream order, the well-formed events of the eleven
handled types — provided each event's `event:`/`data:` line pair is delivered
within a single chunk; an event whose type has no switch case (the spec's
`pipeline-error` among them) is silently dropped.  The original claim — every
well-formed event of every spec-listed type is dispatched regardless of how
the stream is split into chunks — is refuted by `claim_C1_counterexample`. -/
theorem claim_C1 (evs : List (String × String)) (h : ∀ e ∈ evs, cleanEvent e) :
    consumeStream [String.mk (encodeEvents evs)]
      = evs.filter (fun e => decide (e.1 ∈ handledEvents)) := by
  show (processChunk [] (encodeEvents evs)).2 ++ processStream _ [] = _
  simp only [processStream, processChunk, List.nil_append, List.append_nil]
  rw [splitLines_encode _ h, List.dropLast_concat, runLines_lines _ h]

/-- Claim C1, counterexample to the original statement: the same well-formed
`agent_token` event is dispatched when its two lines arrive in one chunk but
silently dropped when the chunk boundary falls between the `event:` line and
the `data:` line (`currentEvent` is reset at each `pump` call); a well-formed
`pipeline_error` event is silently dropped even in one chunk. -/
theorem claim_C1_counterexample :
    consumeStream ["event: agent_token\n", "data: 1\n"] = [] ∧
      consumeStream ["event: agent_token\ndata: 1\n"] = [("agent_token", "1")] ∧
      consumeStream ["event: pipeline_error\ndata: 1\n"] = [] := by
  decide

/-- Claim C1, witness: a handled event is dispatched exactly once, an
unhandled `pipeline_error` event is dropped. -/
theorem claim_C1_witness :
    (∀ e ∈ [("agent_token", "hi"), ("pipeline_error", "x")], cleanEvent e) ∧
      consumeStream [String.mk (encodeEvents [("agent_token", "hi"), ("pipeline_error", "x")])]
        = [("agent_token", "hi")] := by
  refine ⟨by decide, ?_⟩
  rw [claim_C1 _ (by decide)]
  decide

/-- Claim C3 (confirmed).  An `agent_token` event for subtask `id` appends
exactly that token to the subtask's accumulated partial output and changes
nothing else — neither the rest of that record, nor other subtasks, nor any
other page state; folding any nonempty sequence of `agent_token` events for
one subtask yields the concatenation of the tokens in arrival order, and
likewise `synthesis_token` events for the synthesis partial output. -/
theorem claim_C3 (s : ClientState) (now : ℚ) (d : AgentTokenData) (r : SubtaskExecution)
    (h : s.taskStates d.id = some r) :
    ((applyEvent now s (.agent_token d)).taskStates d.id
        = some { r with partialOutput := some (r.partialOutput.getD "" ++ d.token) }) ∧
    (∀ j, j ≠ d.id → (applyEvent now s (.agent_token d)).taskStates j = s.taskStates j) ∧
    ((applyEvent now s (.agent_token d)).executing = s.executing ∧
      (applyEvent now s (.agent_token d)).executionDone = s.executionDone ∧
      (applyEvent now s (.agent_token d)).synthesizing = s.synthesizing ∧
      (applyEvent now s (.agent_token d)).synthesisPartial = s.synthesisPartial ∧
      (applyEvent now s (.agent_token d)).finalOutput = s.finalOutput ∧
      (applyEvent now s (.agent_token d)).walletBalance = s.walletBalance ∧
      (applyEvent now s (.agent_token d)).totalCarbon = s.totalCarbon ∧
      (applyEvent now s (.agent_token d)).carbonSummary = s.carbonSummary ∧
      (applyEvent now s (.agent_token d)).carbonTimeSeries = s.carbonTimeSeries ∧
      (applyEvent now s (.agent_token d)).error = s.error) ∧
    (∀ (i : ℕ) (toks : List String) (r0 : SubtaskExecution),
        s.taskStates i = some r0 → toks ≠ [] →
        (applyEvents s (toks.map (fun t => (now, ExecEvent.agent_token ⟨i, t⟩)))).taskStates i
          = some { r0 with
                   partialOutput := some (r0.partialOutput.getD "" ++ concatStrings toks) }) ∧
    (∀ (toks : List String), toks ≠ [] →
        (applyEvents s (toks.map (fun t => (now, ExecEvent.synthesis_token t)))).synthesisPartial
          = some (s.synthesisPartial.getD "" ++ concatStrings toks)) := by
  refine ⟨?_, ?_, ⟨rfl, rfl, rfl, rfl, rfl, rfl, rfl, rfl, rfl, rfl⟩, ?_, ?_⟩
  · simp [applyEvent, setTask, h]
  · intro j hj
    simp [applyEvent, setTask, hj]
  · intro i toks r0 h0 hne
    exact token_fold now i toks s r0 h0 hne
  · intro toks hne
    exact synth_token_fold now toks s hne

/-- Claim C3, witness at a concrete run with one subtask and one token. -/
theorem claim_C3_witness :
    (emptyState.taskStates 1 = none) ∧
      ((handleExecute emptyState [⟨1, "t", "d", "general", [], "m", "r"⟩]).taskStates 1
        = some initExec) ∧
      ((applyEvent 1 (handleExecute emptyState [⟨1, "t", "d", "general", [], "m", "r"⟩])
          (.agent_token ⟨1, "He"⟩)).taskStates 1
        = some { initExec with partialOutput := some "He" }) := by
  refine ⟨rfl, rfl, ?_⟩
  have := (claim_C3 (handleExecute emptyState [⟨1, "t", "d", "general", [], "m", "r"⟩])
    1 ⟨1, "He"⟩ initExec rfl).1
  simpa using this

/-- Claim C5 (confirmed).  A `billing_required` event only surfaces the
funds-required error banner: every other component of the page state — in
particular the whole `taskStates` record, so every subtask's status, output
and usage fields — is left unchanged. -/
theorem claim_C5 (s : ClientState) (now : ℚ) (d : BillingRequiredData) :
    (applyEvent now s (.billing_required d)).taskStates = s.taskStates ∧
    (applyEvent now s (.billing_required d)).executing = s.executing ∧
    (applyEvent now s (.billing_required d)).executionDone = s.executionDone ∧
    (applyEvent now s (.billing_required d)).synthesizing = s.synthesizing ∧
    (applyEvent now s (.billing_required d)).synthesisPartial = s.synthesisPartial ∧
    (applyEvent now s (.billing_required d)).finalOutput = s.finalOutput ∧
    (applyEvent now s (.billing_required d)).walletBalance = s.walletBalance ∧
    (applyEvent now s (.billing_required d)).totalCarbon = s.totalCarbon ∧
    (applyEvent now s (.billing_required d)).carbonSummary = s.carbonSummary ∧
    (applyEvent now s (.billing_required d)).carbonTimeSeries = s.carbonTimeSeries ∧
    (applyEvent now s (.billing_required d)).error
      = some (billingMessage d.required_microdollars d.balance_microdollars) :=
  ⟨rfl, rfl, rfl, rfl, rfl, rfl, rfl, rfl, rfl, rfl, rfl⟩

/-- Claim C6 (confirmed).  The `catch` of `executeSubtasks` never invokes
`onError` for an `AbortError` (cancellation leaves the page state untouched
by the catch), while any other stream or HTTP failure invokes `onError` with
the failure's message. -/
theorem claim_C6 (s : ClientState) (err : JsError) :
    (err.name = "AbortError" →
      streamFailureCallback err = none ∧ onStreamFailure s err = s) ∧
    (err.name ≠ "AbortError" →
      streamFailureCallback err = some err.message ∧
        (onStreamFailure s err).error = some err.message ∧
        (onStreamFailure s err).executing = false ∧
        (onStreamFailure s err).synthesizing = false) := by
  constructor
  · intro h
    unfold onStreamFailure streamFailureCallback
    simp [h]
  · intro h
    unfold onStreamFailure streamFailureCallback
    simp [h]

/-- Claim C6, witness: an abort invokes nothing; an HTTP failure surfaces
its message. -/
theorem claim_C6_witness :
    streamFailureCallback ⟨"AbortError", "The user aborted a request."⟩ = none ∧
      onStreamFailure emptyState ⟨"AbortError", "The user aborted a request."⟩ = emptyState ∧
      streamFailureCallback ⟨"TypeError", "Execute failed: HTTP 500"⟩
        = some "Execute failed: HTTP 500" := by
  refine ⟨?_, ?_, ?_⟩
  · exact ((claim_C6 emptyState ⟨"AbortError", "The user aborted a request."⟩).1 rfl).1
  · exact ((claim_C6 emptyState ⟨"AbortError", "The user aborted a request."⟩).1 rfl).2
  · exact ((claim_C6 emptyState ⟨"TypeError", "Execute failed: HTTP 500"⟩).2 (by decide)).1

/-- Claim C9 (confirmed).  Starting a run reinitializes every subtask id of
the decomposition to a fresh pending record with null output, partial
output, error, duration, gco2, tokens and timestamps, and clears the final
output, synthesis partial, carbon total, carbon summary, carbon time series
and error of any previous run — all before any stream event is processed. -/
theorem claim_C9 (s : ClientState) (S : List Subtask) (h : s.executing = false) :
    (∀ i, i ∈ S.map Subtask.id → (handleExecute s S).taskStates i = some initExec) ∧
    (handleExecute s S).finalOutput = none ∧
    (handleExecute s S).synthesisPartial = none ∧
    (handleExecute s S).synthesizing = false ∧
    (handleExecute s S).totalCarbon = 0 ∧
    (handleExecute s S).carbonSummary = none ∧
    (handleExecute s S).carbonTimeSeries = [] ∧
    (handleExecute s S).error = none ∧
    (handleExecute s S).executing = true ∧
    (handleExecute s S).executionDone = false := by
  unfold handleExecute
  rw [if_neg (by simp [h])]
  refine ⟨?_, rfl, rfl, rfl, rfl, rfl, rfl, rfl, rfl, rfl⟩
  intro i hi
  obtain ⟨st, hst, hid⟩ := List.mem_map.mp hi
  have hany : S.any (fun st => st.id = i) = true :=
    List.any_eq_true.mpr ⟨st, hst, by simp [hid]⟩
  simp [initTaskStates, hany]

/-- Claim C9, witness: a state carrying artifacts of a previous run is fully
cleared for the new run's single subtask. -/
theorem claim_C9_witness :
    ((handleExecute { emptyState with
        finalOutput := some "stale", totalCarbon := 3, error := some "old",
        carbonTimeSeries := [(1, 1)] } [⟨1, "t", "d", "general", [], "m", "r"⟩]).taskStates 1
      = some initExec) ∧
      ((handleExecute { emptyState with
          finalOutput := some "stale", totalCarbon := 3, error := some "old",
          carbonTimeSeries := [(1, 1)] } [⟨1, "t", "d", "general", [], "m", "r"⟩]).finalOutput
        = none) ∧
      ((handleExecute { emptyState with
          finalOutput := some "stale", totalCarbon := 3, error := some "old",
          carbonTimeSeries := [(1, 1)] } [⟨1, "t", "d", "general", [], "m", "r"⟩]).error
        = none) := by
  refine ⟨?_, ?_, ?_⟩
  · exact (claim_C9 _ _ rfl).1 1 (by simp)
  · exact (claim_C9 { emptyState with
      finalOutput := some "stale", totalCarbon := 3, error := some "old",
      carbonTimeSeries := [(1, 1)] } [⟨1, "t", "d", "general", [], "m", "r"⟩] rfl).2.1
  · exact (claim_C9 { emptyState with
      finalOutput := some "stale", totalCarbon := 3, error := some "old",
      carbonTimeSeries := [(1, 1)] } [⟨1, "t", "d", "general", [], "m", "r"⟩] rfl).2.2.2.2.2.2.2.1

theorem status_frame (now : ℚ) (s : ClientState) (e : ExecEvent) (i : ℕ)
    (h : statusEvent i e = false) :
    statusOf (applyEvent now s e) i = statusOf s i := by
  cases e with
  | agent_started d =>
    have hne : i ≠ d.id := by
      intro he
      simp [statusEvent, he] at h
    simp [applyEvent, statusOf, setTask, hne]
  | agent_completed d =>
    have hne : i ≠ d.id := by
      intro he
      simp [statusEvent, he] at h
    simp [applyEvent, statusOf, setTask, hne]
  | agent_failed d =>
    have hne : i ≠ d.id := by
      intro he
      simp [statusEvent, he] at h
    simp [applyEvent, statusOf, setTask, hne]
  | agent_token d =>
    by_cases hd : i = d.id
    · subst hd
      cases hts : s.taskStates d.id with
      | none => simp [applyEvent, statusOf, setTask, hts, undefExec]
      | some r => simp [applyEvent, statusOf, setTask, hts]
    · simp [applyEvent, statusOf, setTask, hd]
  | wallet_updated d => rfl
  | billing_required d => rfl
  | synthesizing => rfl
  | synthesis_token tok => rfl
  | synthesis_complete out => rfl
  | carbon_update g => rfl
  | carbon_summary d => rfl

theorem status_frame_list (i : ℕ) :
    ∀ (evs : List (ℚ × ExecEvent)) (s : ClientState),
      (∀ te ∈ evs, statusEvent i te.2 = false) →
      statusOf (applyEvents s evs) i = statusOf s i
  | [], _, _ => rfl
  | te :: rest, s, h => by
    have h1 := h te (List.mem_cons_self te rest)
    have hr : ∀ x ∈ rest, statusEvent i x.2 = false :=
      fun x hx => h x (List.mem_cons_of_mem _ hx)
    show statusOf (applyEvents (applyEvent te.1 s te.2) rest) i = _
    rw [status_frame_list i rest _ hr, status_frame te.1 s te.2 i h1]

theorem status_isSome_step (now : ℚ) (s : ClientState) (e : ExecEvent) (i : ℕ)
    (h : (statusOf s i).isSome) : (statusOf (applyEvent now s e) i).isSome := by
  cases e with
  | agent_started d =>
    by_cases hd : i = d.id
    · subst hd; simp [applyEvent, statusOf, setTask]
    · simpa [applyEvent, statusOf, setTask, hd] using h
  | agent_completed d =>
    by_cases hd : i = d.id
    · subst hd; simp [applyEvent, statusOf, setTask]
    · simpa [applyEvent, statusOf, setTask, hd] using h
  | agent_failed d =>
    by_cases hd : i = d.id
    · subst hd; simp [applyEvent, statusOf, setTask]
    · simpa [applyEvent, statusOf, setTask, hd] using h
  | agent_token d =>
    by_cases hd : i = d.id
    · subst hd
      cases hts : s.taskStates d.id with
      | none => simp [statusOf, hts] at h
      | some r => simpa [applyEvent, statusOf, setTask, hts] using h
    · simpa [applyEvent, statusOf, setTask, hd] using h
  | wallet_updated d => exact h
  | billing_required d => exact h
  | synthesizing => exact h
  | synthesis_token tok => exact h
  | synthesis_complete out => exact h
  | carbon_update g => exact h
  | carbon_summary d => exact h

theorem status_isSome_list (i : ℕ) :
    ∀ (evs : List (ℚ × ExecEvent)) (s : ClientState),
      (statusOf s i).isSome → (statusOf (applyEvents s evs) i).isSome
  | [], _, h => h
  | te :: rest, s, h =>
    status_isSome_list i rest _ (status_isSome_step te.1 s te.2 i h)

/-- Claim C2 (corrected).  Every subtask of a run starts as `pending`, moves
to `running` on `agent_started`, is set to `completed`/`failed` by the
corresponding terminal event, keeps its status across any events that do not
carry its id among `agent_started`/`agent_completed`/`agent_failed`, and its
status always remains one of the four `TaskStatus` values.  Terminality is
*not* enforced against later status events for the same id — refuted by
`claim_C2_counterexample` — so "reaches a terminal status exactly once and is
never changed again" holds only for streams respecting the per-subtask
lifecycle order (no status event after the terminal one). -/
theorem claim_C2 (s : ClientState) (S : List Subtask) (now : ℚ) :
    (s.executing = false → ∀ i ∈ S.map Subtask.id,
        statusOf (handleExecute s S) i = some TaskStatus.pending) ∧
    (∀ d : AgentStartedData,
        statusOf (applyEvent now s (.agent_started d)) d.id = some TaskStatus.running) ∧
    (∀ d : AgentCompletedData,
        statusOf (applyEvent now s (.agent_completed d)) d.id = some TaskStatus.completed) ∧
    (∀ d : AgentFailedData,
        statusOf (applyEvent now s (.agent_failed d)) d.id = some TaskStatus.failed) ∧
    (∀ (i : ℕ) (evs : List (ℚ × ExecEvent)),
        (∀ te ∈ evs, statusEvent i te.2 = false) →
        statusOf (applyEvents s evs) i = statusOf s i) ∧
    (∀ (i : ℕ) (evs : List (ℚ × ExecEvent)),
        (statusOf s i).isSome → (statusOf (applyEvents s evs) i).isSome) := by
  refine ⟨?_, ?_, ?_, ?_, ?_, ?_⟩
  · intro h i hi
    obtain ⟨st, hst, hid⟩ := List.mem_map.mp hi
    have hany : S.any (fun st => st.id = i) = true :=
      List.any_eq_true.mpr ⟨st, hst, by simp [hid]⟩
    unfold handleExecute
    rw [if_neg (by simp [h])]
    simp [statusOf, initTaskStates, hany, initExec]
  · intro d
    simp [applyEvent, statusOf, setTask]
  · intro d
    simp [applyEvent, statusOf, setTask]
  · intro d
    simp [applyEvent, statusOf, setTask]
  · intro i evs h
    exact status_frame_list i evs s h
  · intro i evs h
    exact status_isSome_list i evs s h

/-- Claim C2, counterexample to the original statement: after
`agent_completed` the status is terminal `completed`, yet a later
`agent_started` event for the same subtask flips it back to `running` — the
handlers never guard against status changes after a terminal status. -/
theorem claim_C2_counterexample :
    statusOf (applyEvent 1 (handleExecute emptyState [⟨1, "t", "d", "general", [], "m", "r"⟩])
        (.agent_completed ⟨1, "t", "m", "out", 2, 0, 5, none, none, none, none, none⟩)) 1
      = some TaskStatus.completed ∧
    statusOf (applyEvent 2
        (applyEvent 1 (handleExecute emptyState [⟨1, "t", "d", "general", [], "m", "r"⟩])
          (.agent_completed ⟨1, "t", "m", "out", 2, 0, 5, none, none, none, none, none⟩))
        (.agent_started ⟨1, "t", "m"⟩)) 1
      = some TaskStatus.running ∧
    TaskStatus.running ≠ TaskStatus.completed := by
  refine ⟨rfl, rfl, by decide⟩

/-- Claim C2, witness: a fresh run's subtask is pending; status-neutral
events leave the status unchanged; the status stays defined. -/
theorem claim_C2_witness :
    (statusOf (handleExecute emptyState [⟨1, "t", "d", "general", [], "m", "r"⟩]) 1
      = some TaskStatus.pending) ∧
    (statusOf (applyEvents (handleExecute emptyState [⟨1, "t", "d", "general", [], "m", "r"⟩])
        [(0, .wallet_updated ⟨"demo", 100⟩), (1, .carbon_update 2),
         (2, .agent_token ⟨1, "x"⟩)]) 1
      = statusOf (handleExecute emptyState [⟨1, "t", "d", "general", [], "m", "r"⟩]) 1) ∧
    (statusOf (applyEvents (handleExecute emptyState [⟨1, "t", "d", "general", [], "m", "r"⟩])
        [(1, .agent_started ⟨1, "t", "m"⟩)]) 1).isSome := by
  refine ⟨?_, ?_, ?_⟩
  · exact (claim_C2 emptyState [⟨1, "t", "d", "general", [], "m", "r"⟩] 0).1 rfl 1 (by simp)
  · exact (claim_C2 (handleExecute emptyState [⟨1, "t", "d", "general", [], "m", "r"⟩])
      [] 0).2.2.2.2.1 1
      [(0, .wallet_updated ⟨"demo", 100⟩), (1, .carbon_update 2), (2, .agent_token ⟨1, "x"⟩)]
      (by decide)
  · exact (claim_C2 (handleExecute emptyState [⟨1, "t", "d", "general", [], "m", "r"⟩])
      [] 0).2.2.2.2.2 1 [(1, .agent_started ⟨1, "t", "m"⟩)] (by decide)

theorem totals_congr : ∀ (S : List Subtask) (acc : List (String × ModelTotals))
    (ts1 ts2 : ℕ → Option SubtaskExecution),
    (∀ i, costProj (ts1 i) = costProj (ts2 i)) →
    S.foldl (totalsStep ts1) acc = S.foldl (totalsStep ts2) acc
  | [], _, _, _, _ => rfl
  | st :: rest, acc, ts1, ts2, h => by
    have h3 := h st.id
    unfold costProj at h3
    have h1 := congrArg Prod.fst h3
    have h2 := congrArg (fun p => p.2.1) h3
    have h4 := congrArg (fun p => p.2.2) h3
    simp only at h1 h2 h4
    have hstep : totalsStep ts1 acc st = totalsStep ts2 acc st := by
      unfold totalsStep
      dsimp only
      rw [h1, h2, h4]
    show List.foldl (totalsStep ts1) (totalsStep ts1 acc st) rest = _
    rw [hstep]
    exact totals_congr rest _ ts1 ts2 h

/-- Claim C7 (confirmed).  Replaying the same `agent_completed` event twice
for the same subtask id reproduces the record of the single application in
every field except the client-tracked `completedAt` timestamp — in
particular status, output, tokens, costs, gco2 and duration are unchanged —
no other subtask's record is touched, and `totalsByModel`, recomputed from
the per-subtask records, is identical, so input tokens, output tokens and
cost are not double-counted. -/
theorem claim_C7 (S : List Subtask) (s : ClientState) (d : AgentCompletedData)
    (now1 now2 : ℚ) :
    ((applyEvent now2 (applyEvent now1 s (.agent_completed d))
          (.agent_completed d)).taskStates d.id
        = ((applyEvent now1 s (.agent_completed d)).taskStates d.id).map
            (fun r => { r with completedAt := some now2 })) ∧
    (∀ j, j ≠ d.id →
        (applyEvent now2 (applyEvent now1 s (.agent_completed d))
            (.agent_completed d)).taskStates j
          = (applyEvent now1 s (.agent_completed d)).taskStates j) ∧
    (totalsByModel S (applyEvent now2 (applyEvent now1 s (.agent_completed d))
          (.agent_completed d)).taskStates
      = totalsByModel S (applyEvent now1 s (.agent_completed d)).taskStates) := by
  refine ⟨?_, ?_, ?_⟩
  · simp [applyEvent, setTask]
  · intro j hj
    simp [applyEvent, setTask, hj]
  · apply totals_congr
    intro i
    by_cases hd : i = d.id
    · subst hd
      simp [applyEvent, setTask, costProj]
    · simp [applyEvent, setTask, hd]

/-- Claim C7, witness: replaying a concrete completion event changes only
`completedAt`, leaves other ids alone and leaves the per-model totals
identical. -/
theorem claim_C7_witness :
    ((applyEvent 2 (applyEvent 1 (handleExecute emptyState
          [⟨1, "t", "d", "general", [], "m", "r"⟩])
          (.agent_completed ⟨1, "t", "m", "out", 2, 0, 5, some 10, some 20, some 1, some 2, some 3⟩))
        (.agent_completed ⟨1, "t", "m", "out", 2, 0, 5, some 10, some 20, some 1, some 2, some 3⟩)).taskStates 1
      = ((applyEvent 1 (handleExecute emptyState
          [⟨1, "t", "d", "general", [], "m", "r"⟩])
          (.agent_completed ⟨1, "t", "m", "out", 2, 0, 5, some 10, some 20, some 1, some 2, some 3⟩)).taskStates 1).map
            (fun r => { r with completedAt := some 2 })) ∧
    (totalsByModel [⟨1, "t", "d", "general", [], "m", "r"⟩]
        (applyEvent 2 (applyEvent 1 (handleExecute emptyState
            [⟨1, "t", "d", "general", [], "m", "r"⟩])
            (.agent_completed ⟨1, "t", "m", "out", 2, 0, 5, some 10, some 20, some 1, some 2, some 3⟩))
          (.agent_completed ⟨1, "t", "m", "out", 2, 0, 5, some 10, some 20, some 1, some 2, some 3⟩)).taskStates
      = totalsByModel [⟨1, "t", "d", "general", [], "m", "r"⟩]
          (applyEvent 1 (handleExecute emptyState
            [⟨1, "t", "d", "general", [], "m", "r"⟩])
            (.agent_completed ⟨1, "t", "m", "out", 2, 0, 5, some 10, some 20, some 1, some 2, some 3⟩)).taskStates) ∧
    ((applyEvent 2 (applyEvent 1 (handleExecute emptyState
          [⟨1, "t", "d", "general", [], "m", "r"⟩])
          (.agent_completed ⟨1, "t", "m", "out", 2, 0, 5, some 10, some 20, some 1, some 2, some 3⟩))
        (.agent_completed ⟨1, "t", "m", "out", 2, 0, 5, some 10, some 20, some 1, some 2, some 3⟩)).taskStates 0
      = (applyEvent 1 (handleExecute emptyState
          [⟨1, "t", "d", "general", [], "m", "r"⟩])
          (.agent_completed ⟨1, "t", "m", "out", 2, 0, 5, some 10, some 20, some 1, some 2, some 3⟩)).taskStates 0) := by
  refine ⟨?_, ?_, ?_⟩
  · exact (claim_C7 [⟨1, "t", "d", "general", [], "m", "r"⟩] (handleExecute emptyState
      [⟨1, "t", "d", "general", [], "m", "r"⟩])
      ⟨1, "t", "m", "out", 2, 0, 5, some 10, some 20, some 1, some 2, some 3⟩ 1 2).1
  · exact (claim_C7 [⟨1, "t", "d", "general", [], "m", "r"⟩] (handleExecute emptyState
      [⟨1, "t", "d", "general", [], "m", "r"⟩])
      ⟨1, "t", "m", "out", 2, 0, 5, some 10, some 20, some 1, some 2, some 3⟩ 1 2).2.2
  · exact (claim_C7 [⟨1, "t", "d", "general", [], "m", "r"⟩] (handleExecute emptyState
      [⟨1, "t", "d", "general", [], "m", "r"⟩])
      ⟨1, "t", "m", "out", 2, 0, 5, some 10, some 20, some 1, some 2, some 3⟩ 1 2).2.1 0 (by decide)

/-- Claim C4 (confirmed, against the spec model).  In the
`runnable_now()` model of the Dependency Graph: a pending subtask with an
empty `depends_on` is runnable immediately (for any settled set, the empty
one of a fresh run included), and a subtask is in `runnable_now()` — the
only source of dispatches — only when every one of its dependencies has
settled. -/
theorem claim_C4 (S : List Subtask) (pending settled : List ℕ) (st : Subtask)
    (hmem : st ∈ S) (hnodup : (S.map Subtask.id).Nodup) :
    (st.depends_on = [] → st.id ∈ pending → st.id ∈ runnableNow S pending settled) ∧
    (st.id ∈ runnableNow S pending settled → ∀ d ∈ st.depends_on, d ∈ settled) := by
  constructor
  · intro hdeps hpend
    unfold runnableNow
    apply List.mem_map.mpr
    refine ⟨st, ?_, rfl⟩
    apply List.mem_filter.mpr
    refine ⟨hmem, ?_⟩
    simp [unmetCount, hdeps, hpend]
  · intro hrun d hd
    unfold runnableNow at hrun
    obtain ⟨st2, hst2, hid⟩ := List.mem_map.mp hrun
    obtain ⟨hst2S, hcond⟩ := List.mem_filter.mp hst2
    have heq : st2 = st := List.inj_on_of_nodup_map hnodup hst2S hmem hid
    subst heq
    have hz : unmetCount settled st2 = 0 := by
      have := (Bool.and_eq_true _ _).mp hcond
      simpa using this.2
    unfold unmetCount at hz
    have hnil := List.eq_nil_of_length_eq_zero hz
    by_contra hns
    have hmemf : d ∈ st2.depends_on.filter (fun x => !settled.contains x) :=
      List.mem_filter.mpr ⟨hd, by simp [hns]⟩
    rw [hnil] at hmemf
    exact absurd hmemf (List.not_mem_nil d)

/-- Claim C4, witness on the DAG 1 ← 2, 3: the dependency-free node 3 is
runnable with nothing settled, node 2 is runnable only once 1 settled, and
node 2 is not runnable while 1 is unsettled. -/
theorem claim_C4_witness :
    ((⟨3, "t3", "d", "general", [], "m", "r"⟩ : Subtask).depends_on = [] ∧
      (3 : ℕ) ∈ runnableNow
        [⟨1, "t1", "d", "general", [], "m", "r"⟩,
         ⟨2, "t2", "d", "general", [1], "m", "r"⟩,
         ⟨3, "t3", "d", "general", [], "m", "r"⟩] [2, 3] []) ∧
    ((2 : ℕ) ∈ runnableNow
        [⟨1, "t1", "d", "general", [], "m", "r"⟩,
         ⟨2, "t2", "d", "general", [1], "m", "r"⟩,
         ⟨3, "t3", "d", "general", [], "m", "r"⟩] [2] [1] →
      ∀ d ∈ (⟨2, "t2", "d", "general", [1], "m", "r"⟩ : Subtask).depends_on,
        d ∈ ([1] : List ℕ)) ∧
    ¬ (2 : ℕ) ∈ runnableNow
        [⟨1, "t1", "d", "general", [], "m", "r"⟩,
         ⟨2, "t2", "d", "general", [1], "m", "r"⟩,
         ⟨3, "t3", "d", "general", [], "m", "r"⟩] [2, 3] [] := by
  refine ⟨⟨rfl, ?_⟩, ?_, by decide⟩
  · exact (claim_C4
      [⟨1, "t1", "d", "general", [], "m", "r"⟩,
       ⟨2, "t2", "d", "general", [1], "m", "r"⟩,
       ⟨3, "t3", "d", "general", [], "m", "r"⟩] [2, 3] []
      ⟨3, "t3", "d", "general", [], "m", "r"⟩ (by decide) (by decide)).1 rfl (by decide)
  · exact (claim_C4
      [⟨1, "t1", "d", "general", [], "m", "r"⟩,
       ⟨2, "t2", "d", "general", [1], "m", "r"⟩,
       ⟨3, "t3", "d", "general", [], "m", "r"⟩] [2] [1]
      ⟨2, "t2", "d", "general", [1], "m", "r"⟩ (by decide) (by decide)).2

theorem validAmount_iff (a : ℚ) :
    validAmount a = true ↔ (99/200 ≤ a ∧ a < 20001/200) := by
  unfold validAmount amountCents jsMathRound
  rw [Bool.and_eq_true, decide_eq_true_eq, decide_eq_true_eq]
  constructor
  · rintro ⟨h1, h2⟩
    constructor
    · have hle : (50 : ℚ) ≤ a * 100 + 1/2 := by exact_mod_cast Int.le_floor.mp h1
      linarith
    · have h3 : (⌊a * 100 + 1/2⌋ : ℚ) ≤ 10000 := by exact_mod_cast h2
      have h4 := Int.lt_floor_add_one (a * 100 + 1/2)
      linarith
  · rintro ⟨h1, h2⟩
    constructor
    · apply Int.le_floor.mpr
      push_cast
      linarith
    · have h5 : ⌊a * 100 + 1/2⌋ < 10001 := Int.floor_lt.mpr (by push_cast; linarith)
      omega

/-- Claim C10 (confirmed).  Both top-up handlers issue their request exactly
when the entered amount, rounded to cents by `Math.round(a * 100)`, lies in
[50, 10000] — equivalently, for exact inputs, when $0.495 ≤ a < $100.005 —
and for any amount outside that range both return without any request. -/
theorem claim_C10 (a : ℚ) :
    ((handleQuickAdd a).isSome ↔ (99/200 ≤ a ∧ a < 20001/200)) ∧
    ((handleProceed a).isSome ↔ (handleQuickAdd a).isSome) ∧
    ((handleQuickAdd a).isNone ↔ (amountCents a < 50 ∨ 10000 < amountCents a)) := by
  refine ⟨?_, ?_, ?_⟩
  · unfold handleQuickAdd
    cases h : validAmount a with
    | true => simpa using (validAmount_iff a).mp h
    | false =>
      simp only [Bool.false_eq_true, if_false, Option.isSome_none, Bool.false_eq_true,
        false_iff]
      intro hc
      exact absurd ((validAmount_iff a).mpr hc) (by simp [h])
  · unfold handleQuickAdd handleProceed
    cases h : validAmount a <;> simp
  · unfold handleQuickAdd
    have hval : validAmount a = true ↔ (50 ≤ amountCents a ∧ amountCents a ≤ 10000) := by
      unfold validAmount
      rw [Bool.and_eq_true, decide_eq_true_eq, decide_eq_true_eq]
    cases h : validAmount a with
    | true =>
      obtain ⟨h1, h2⟩ := hval.mp h
      simp only [if_true]
      constructor
      · intro hn; exact absurd hn (by simp)
      · intro hor; rcases hor with h3 | h3 <;> omega
    | false =>
      simp only [Bool.false_eq_true, if_false]
      constructor
      · intro _
        by_contra hor
        push_neg at hor
        exact absurd (hval.mpr ⟨by omega, by omega⟩) (by simp [h])
      · intro _; rfl

theorem roundHalfAway_abs (q : ℚ) : |(jsRoundHalfAway q : ℚ) - q| ≤ 1/2 := by
  unfold jsRoundHalfAway
  split
  · rw [abs_le]
    constructor
    · have h1 := Int.sub_one_lt_floor (q + 1/2)
      linarith
    · have h1 := Int.floor_le (q + 1/2)
      linarith
  · rw [abs_le]
    push_cast
    constructor
    · have h1 := Int.floor_le (-q + 1/2)
      linarith
    · have h1 := Int.sub_one_lt_floor (-q + 1/2)
      linarith

theorem toFixedVal_close (n : ℕ) (q : ℚ) :
    |toFixedVal n q - q| ≤ 1 / (2 * 10 ^ n) := by
  unfold toFixedVal
  have hp : (0 : ℚ) < 10 ^ n := by positivity
  have heq : (jsRoundHalfAway (q * 10 ^ n) : ℚ) / 10 ^ n - q
      = ((jsRoundHalfAway (q * 10 ^ n) : ℚ) - q * 10 ^ n) / 10 ^ n := by
    field_simp
    ring
  rw [heq, abs_div, abs_of_pos hp, div_le_iff₀ hp]
  have hr := roundHalfAway_abs (q * 10 ^ n)
  have hexp : 1 / (2 * 10 ^ n) * 10 ^ n = (1 / 2 : ℚ) := by
    field_simp
    ring
  rw [hexp]
  exact hr

/-- Claim C8 (corrected).  The *balance* amounts — `wallet_updated` and
`billing_required` payloads and the balance query — are integer microdollars
(typed so per the API contract), and the dollar figures derived from them
divide by exactly 1,000,000: lossless on integers, mapping one dollar to
exactly 1,000,000 microdollars, rendered by the nav chip to two decimals and
by the insufficient-balance message to four, within half a unit of the last
rendered place.  The per-subtask cost fields of `agent_completed`, by
contrast, arrive from the stream already in fractional USD, and the
`AgentNode` per-model chip renders the aggregated `total_cost` directly —
`toFixed(2)` at or above one cent, `toFixed(4)` below — with no division by
1e6; the original "all stream amounts are integer microdollars / every
user-facing dollar figure divides by 1e6" is refuted by
`claim_C8_counterexample`. -/
theorem claim_C8 (w r : ℤ) (c : ℚ) :
    navBalanceUsd w * 1000000 = w ∧
    navBalanceUsd (w + 1000000) = navBalanceUsd w + 1 ∧
    billingUsd r = navBalanceUsd r ∧
    navBalanceText w = "$" ++ jsToFixed 2 ((w : ℚ) / 1000000) ∧
    billingMessage r w
      = "Insufficient balance. Need $" ++ jsToFixed 4 ((r : ℚ) / 1000000) ++
          " (balance: $" ++ jsToFixed 4 ((w : ℚ) / 1000000) ++ "). Top up to continue." ∧
    |toFixedVal 2 (navBalanceUsd w) - navBalanceUsd w| ≤ 1/200 ∧
    |toFixedVal 4 (billingUsd r) - billingUsd r| ≤ 1/20000 ∧
    (1/100 ≤ c → agentCostChipText c = "$" ++ jsToFixed 2 c) ∧
    (c < 1/100 → agentCostChipText c = "$" ++ jsToFixed 4 c) := by
  refine ⟨?_, ?_, rfl, rfl, rfl, ?_, ?_, ?_, ?_⟩
  · unfold navBalanceUsd
    field_simp
  · unfold navBalanceUsd
    push_cast
    ring
  · have := toFixedVal_close 2 (navBalanceUsd w)
    norm_num at this
    convert this using 2
  · have := toFixedVal_close 4 (billingUsd r)
    norm_num at this
    convert this using 2
  · intro h
    unfold agentCostChipText
    rw [if_pos h]
  · intro h
    unfold agentCostChipText
    rw [if_neg (not_le.mpr h)]

theorem jsRound_42 : jsRoundHalfAway ((21/5000 : ℚ) * 10 ^ 4) = 42 := by
  unfold jsRoundHalfAway
  rw [if_pos (by norm_num)]
  rw [Int.floor_eq_iff]
  norm_num

theorem jsRound_0 : jsRoundHalfAway ((21/5000 : ℚ) / 1000000 * 10 ^ 4) = 0 := by
  unfold jsRoundHalfAway
  rw [if_pos (by norm_num)]
  rw [Int.floor_eq_iff]
  norm_num

theorem chip_42 : agentCostChipText (21/5000) = "$0.0042" := by
  unfold agentCostChipText
  rw [if_neg (by norm_num)]
  unfold jsToFixed
  rw [jsRound_42]
  rw [show (decide ((21/5000 : ℚ) < 0)) = false by
    simp only [decide_eq_false_iff_not]; norm_num]
  rfl

theorem divided_42 : "$" ++ jsToFixed 4 ((21/5000 : ℚ) / 1000000) = "$0.0000" := by
  unfold jsToFixed
  rw [jsRound_0]
  rw [show (decide ((21/5000 : ℚ) / 1000000 < 0)) = false by
    simp only [decide_eq_false_iff_not]; norm_num]
  rfl

/-- Claim C8, counterexample to the original statement: the `total_cost` a
concrete `agent_completed` event stores is $0.0042 — a money amount received
from the event stream that is not an integer count of microdollars — it
reaches the per-model totals unchanged, and the `AgentNode` chip renders it
as the user-facing figure `$0.0042` directly: dividing it by 1,000,000 as
the claim demands would render `$0.0000` instead. -/
theorem claim_C8_counterexample :
    (((applyEvent 1 (handleExecute emptyState [⟨1, "t", "d", "general", [], "m", "r"⟩])
          (.agent_completed ⟨1, "t", "m", "out", 2, 0, 5, some 10, some 20,
            some (1/1000), some (16/5000), some (21/5000)⟩)).taskStates 1).bind
        SubtaskExecution.total_cost = some (21/5000)) ∧
    ((21 : ℚ)/5000).den ≠ 1 ∧
    (List.lookup "m" (totalsByModel [⟨1, "t", "d", "general", [], "m", "r"⟩]
        (applyEvent 1 (handleExecute emptyState [⟨1, "t", "d", "general", [], "m", "r"⟩])
          (.agent_completed ⟨1, "t", "m", "out", 2, 0, 5, some 10, some 20,
            some (1/1000), some (16/5000), some (21/5000)⟩)).taskStates)
      = some ⟨10, 20, 21/5000⟩) ∧
    agentCostChipText (21/5000) = "$0.0042" ∧
    "$" ++ jsToFixed 4 ((21/5000 : ℚ) / 1000000) = "$0.0000" ∧
    agentCostChipText (21/5000) ≠ "$" ++ jsToFixed 4 ((21/5000 : ℚ) / 1000000) := by
  refine ⟨?_, ?_, ?_, chip_42, divided_42, ?_⟩
  · simp [applyEvent, setTask, handleExecute, emptyState, initTaskStates]
  · rw [(by norm_num : ((21 : ℚ)/5000).den = 5000)]
    decide
  · simp [totalsByModel, totalsStep, upsertTotals, applyEvent, setTask, handleExecute,
      emptyState, initTaskStates]
  · rw [chip_42, divided_42]
    decide

/-- Claim C8, witness: the chip hypotheses discharged at one cent-scale and
one sub-cent cost, alongside the lossless balance conversion. -/
theorem claim_C8_witness :
    navBalanceUsd 12340000 * 1000000 = (12340000 : ℤ) ∧
    agentCostChipText (1/50) = "$" ++ jsToFixed 2 (1/50) ∧
    agentCostChipText (21/5000) = "$" ++ jsToFixed 4 (21/5000) := by
  refine ⟨(claim_C8 12340000 0 (1/50)).1, ?_, ?_⟩
  · exact (claim_C8 12340000 0 (1/50)).2.2.2.2.2.2.2.1 (by norm_num)
  · exact (claim_C8 12340000 0 (21/5000)).2.2.2.2.2.2.2.2 (by norm_num)

end Quorum
